import Mathlib

/-!
Verification of the gmail-label-fixer core: a shallow embedding of the label
hierarchy parser (`ParseLabelHierarchy`), the analyzer (`AnalyzeLabels`,
`CheckConflicts`, `GetAllRequiredParents`), the retry layer
(`retryWithBackoff`, `isRetryableError`, backoff delay computation), the
Gmail client's `LabelExists`, and the message-moving loop of
`processTransformation`.  Remote Gmail API calls are modelled as explicit
inputs: the label listing is an `Except` value (error = the listing call
failed), per-label message fetches are functions to `Except`, and the
per-attempt outcome of a retried operation is a function from the attempt
index to an optional error.
-/

namespace GmailLabelFixer

/-- Models Go `strings.ToLower` (ASCII; all message texts involved are ASCII). -/
def strToLower (s : String) : String := String.mk (s.toList.map Char.toLower)

/-- Models Go `strings.ToUpper` (ASCII; the reserved root marker is ASCII). -/
def strToUpper (s : String) : String := String.mk (s.toList.map Char.toUpper)

/-- `hasPrefixL pat s` is true when `pat` is a prefix of `s` (on char lists). -/
def hasPrefixL : List Char → List Char → Bool
  | [], _ => true
  | _ :: _, [] => false
  | a :: pa, b :: sb => a = b && hasPrefixL pa sb

/-- `containsL s pat`: `pat` occurs as a contiguous substring of `s`.
Models Go `strings.Contains` (which is true for the empty pattern). -/
def containsL : List Char → List Char → Bool
  | [], pat => pat.isEmpty
  | a :: t, pat => hasPrefixL pat (a :: t) || containsL t pat

/-- Models Go `strings.Contains(s, pat)`. -/
def strContains (s pat : String) : Bool := containsL s.toList pat.toList

/-- Splits a char list on a separator char; always returns at least one
segment.  This is the semantics of Go `strings.Split(s, sep)` for a
one-char separator. -/
def splitOnC (c : Char) : List Char → List (List Char)
  | [] => [[]]
  | a :: rest =>
    if a = c then [] :: splitOnC c rest
    else (a :: (splitOnC c rest).headI) :: (splitOnC c rest).tail

/-- The segments of a label name split on the flat delimiter `.`
(Go: `strings.Split(labelName, ".")`). -/
def splitParts (name : String) : List String :=
  (splitOnC '.' name.toList).map (fun l => String.mk l)

/-- A Gmail label record (`*gmail.Label`): opaque id, display name and type
(`"user"` for user-created labels). -/
structure Label where
  id : String
  name : String
  ltype : String
deriving DecidableEq

/-- `analyzer.LabelTransformation` from the source. -/
structure LabelTransformation where
  originalLabel : String
  originalID : String
  hierarchyParts : List String
  nestedStructure : String
  messageCount : Nat
  requiredParents : List String
deriving DecidableEq

/-- The parent-path list built by the loop
`for i := 1; i < len(finalParts); i++ { append(join(finalParts[:i], "/")) }`. -/
def buildRequiredParents (finalParts : List String) : List String :=
  (List.range (finalParts.length - 1)).map
    (fun i => String.intercalate "/" (finalParts.take (i + 1)))

/-- `analyzer.ParseLabelHierarchy` (the version with INBOX-prefix handling):
split on `.`; not eligible when at most one segment; an `INBOX` first
segment (case-insensitively) is dropped, and if a single segment remains
the label becomes a flat top-level name. -/
def ParseLabelHierarchy (labelName : String) : Option LabelTransformation :=
  let parts := splitParts labelName
  if parts.length ≤ 1 then none
  else
    if strToUpper parts.headI = "INBOX" then
      let finalParts := parts.tail
      if finalParts.length = 1 then
        some { originalLabel := labelName, originalID := "",
               hierarchyParts := finalParts,
               nestedStructure := finalParts.headI,
               messageCount := 0,
               requiredParents := [] }
      else
        some { originalLabel := labelName, originalID := "",
               hierarchyParts := finalParts,
               nestedStructure := String.intercalate "/" finalParts,
               messageCount := 0,
               requiredParents := buildRequiredParents finalParts }
    else
      some { originalLabel := labelName, originalID := "",
             hierarchyParts := parts,
             nestedStructure := String.intercalate "/" parts,
             messageCount := 0,
             requiredParents := buildRequiredParents parts }

/-- `analyzer.GetAllRequiredParents`: the union of all `RequiredParents`,
deduplicated via a `map[string]bool` set.  Go's map-key iteration order is
unspecified; we model it by first-insertion order (`dedup`); `AnalyzeLabels`
sorts the result, which makes the iteration order immaterial (proved below). -/
def GetAllRequiredParents (ts : List LabelTransformation) : List String :=
  (ts.flatMap (fun t => t.requiredParents)).dedup

/-- Go `sort.Strings`: lexicographic sort. -/
def sortStrings (l : List String) : List String := l.mergeSort

/-- `gmail.Client.LabelExists`: lists all labels and scans for an exact name
match; a failure of the listing call is swallowed and reported as `none`
(Go returns `(nil, false)`), indistinguishable from genuine absence.
The listing input models `GetAllLabels`. -/
def LabelExists (listing : Except String (List Label)) (labelName : String) :
    Option Label :=
  match listing with
  | .error _ => none
  | .ok ls => ls.find? (fun l => l.name == labelName)

/-- `gmail.Client.FindPeriodSeparatedLabels`: user-created labels whose name
contains the flat delimiter. -/
def FindPeriodSeparatedLabels (listing : Except String (List Label)) :
    Except String (List Label) :=
  match listing with
  | .error e => .error e
  | .ok ls => .ok (ls.filter (fun l => l.ltype == "user" && strContains l.name "."))

/-- The body of the per-transformation loop of `analyzer.CheckConflicts`:
a conflict line for every required parent whose name already exists, then
one for the nested target name when it exists.  (Go quotes the names;
quoting is elided.) -/
def conflictsFor (listing : Except String (List Label))
    (t : LabelTransformation) : List String :=
  (t.requiredParents.filterMap (fun p =>
    (LabelExists listing p).map (fun l =>
      "Parent label " ++ p ++ " already exists (ID: " ++ l.id ++ ")"))) ++
  (match LabelExists listing t.nestedStructure with
   | some l =>
      ["Target label " ++ t.nestedStructure ++ " already exists (ID: " ++ l.id ++ ")"]
   | none => [])

/-- `analyzer.CheckConflicts`: the conflict lines of all transformations. -/
def CheckConflicts (listing : Except String (List Label))
    (ts : List LabelTransformation) : List String :=
  ts.flatMap (conflictsFor listing)

/-- The per-label loop body of `analyzer.AnalyzeLabels`: parse each label,
attach its id, fetch its message ids (`GetMessagesWithLabel`, modelled by
`fetch`), and abort the whole analysis on a fetch failure.  Returns the
name-keyed transformation entries and the total message count. -/
def analyzeLoop (fetch : String → Except String (List String)) :
    List Label → Except String (List (String × LabelTransformation) × Nat)
  | [] => .ok ([], 0)
  | l :: rest =>
    match ParseLabelHierarchy l.name with
    | none => analyzeLoop fetch rest
    | some t =>
      match fetch l.id with
      | .error e =>
          .error ("failed to get message count for label " ++ l.name ++ ": " ++ e)
      | .ok ids =>
        match analyzeLoop fetch rest with
        | .error e => .error e
        | .ok (m, tot) =>
            .ok ((l.name, { t with originalID := l.id,
                                   messageCount := ids.length }) :: m,
                 ids.length + tot)

/-- `analyzer.AnalysisResult`; the transformations map is modelled as a
name-keyed association list. -/
structure AnalysisResult where
  periodLabels : List Label
  transformations : List (String × LabelTransformation)
  requiredParents : List String
  totalMessages : Nat
deriving DecidableEq

/-- `analyzer.AnalyzeLabels`: enumerate period-separated labels (fatal on
failure), run the per-label loop, aggregate the sorted required parents. -/
def AnalyzeLabels (listing : Except String (List Label))
    (fetch : String → Except String (List String)) :
    Except String AnalysisResult :=
  match FindPeriodSeparatedLabels listing with
  | .error e => .error ("failed to find period-separated labels: " ++ e)
  | .ok periodLabels =>
    match analyzeLoop fetch periodLabels with
    | .error e => .error e
    | .ok (entries, tot) =>
        .ok { periodLabels := periodLabels,
              transformations := entries,
              requiredParents :=
                sortStrings (GetAllRequiredParents (entries.map Prod.snd)),
              totalMessages := tot }

/-- The message-count step of `operations.findLabelWithChildren` (and
`findSpecificLabel`): on a fetch failure, warn and record count 0 instead
of failing. -/
def attachCount (fetch : String → Except String (List String))
    (t : LabelTransformation) (id : String) : LabelTransformation :=
  match fetch id with
  | .error _ => { t with originalID := id, messageCount := 0 }
  | .ok ids => { t with originalID := id, messageCount := ids.length }

/-- A Go error as seen by the retry layer: either a `*googleapi.Error`
(HTTP status code plus message) or any other error, identified by its
`Error()` text. -/
inductive GoError where
  | apiError (code : Nat) (message : String)
  | generic (text : String)
deriving DecidableEq

/-- The rendered `Error()` text.  `googleapi.Error.Error()` renders as
`"googleapi: Error <code>: <message>, <reasons>"`; the part relevant to the
substring checks is that the message text is embedded in it. -/
def errText : GoError → String
  | .apiError c m => "googleapi: Error " ++ toString c ++ ": " ++ m
  | .generic t => t

/-- The network-level substring test at the bottom of `isRetryableError`:
lowercase text contains `"timeout"`, `"connection reset"` or
`"temporary failure"`. -/
def isTransientText (t : String) : Bool :=
  strContains (strToLower t) "timeout" ||
  strContains (strToLower t) "connection reset" ||
  strContains (strToLower t) "temporary failure"

/-- `operations.isRetryableError`: 429/500/502/503/504 are retryable; 403 is
retryable exactly when its message mentions quota or rate limit (returning
directly from that case); every other error — including API errors with
other status codes — falls through to the transient-text check on the
rendered error text. -/
def isRetryableError (e : GoError) : Bool :=
  match e with
  | .apiError c m =>
    if c = 429 || c = 500 || c = 502 || c = 503 || c = 504 then true
    else if c = 403 then
      strContains (strToLower m) "quota" || strContains (strToLower m) "rate limit"
    else isTransientText (errText e)
  | .generic t => isTransientText t

/-- Modelled from the spec's words (the classifier the specification
describes): retryable requires an explicit rate-limit signal (429), a
server-side 5xx-class transient error (500/502/503/504), a 403 whose
message indicates quota or rate-limit exhaustion, or a network-level
transient condition — a non-API transport error — whose text indicates
timeout, connection reset or temporary failure.  Everything else is
terminal. -/
def specRetryableClaim : GoError → Bool
  | .apiError c m =>
      c = 429 || c = 500 || c = 502 || c = 503 || c = 504 ||
      (c = 403 &&
        (strContains (strToLower m) "quota" || strContains (strToLower m) "rate limit"))
  | .generic t => isTransientText t

/-- Outcome of `operations.retryWithBackoff`: success, an immediately
returned non-retryable error, or the wrapped budget-exhausted failure
carrying the last underlying error. -/
inductive RetryOutcome where
  | success
  | terminal (e : GoError)
  | exhausted (last : GoError)
deriving DecidableEq

/-- The loop of `operations.retryWithBackoff`, with the sleeping elided:
`op a` is the result of invoking the operation on attempt `a` (`none` =
success); `remaining` is the number of attempts still allowed after the
current one (initially `MaxRetries`).  Returns the outcome and the number
of invocations performed. -/
def retryLoop (op : Nat → Option GoError) (attempt : Nat) :
    Nat → RetryOutcome × Nat
  | 0 =>
    match op attempt with
    | none => (.success, 1)
    | some e =>
      if isRetryableError e then (.exhausted e, 1) else (.terminal e, 1)
  | r + 1 =>
    match op attempt with
    | none => (.success, 1)
    | some e =>
      if isRetryableError e then
        let res := retryLoop op (attempt + 1) r
        (res.1, res.2 + 1)
      else (.terminal e, 1)

/-- `operations.retryWithBackoff` with `MaxRetries = maxRetries`: attempts
`0` through `maxRetries`. -/
def retryWithBackoff (maxRetries : Nat) (op : Nat → Option GoError) :
    RetryOutcome × Nat :=
  retryLoop op 0 maxRetries

/-- The signed 64-bit wraparound of an integer: the representative of
`x` mod `2^64` in `[-2^63, 2^63)`.  Go's `time.Duration` is an `int64`
whose multiplication and addition wrap. -/
def wrap64 (x : Int) : Int := (x + 2 ^ 63) % 2 ^ 64 - 2 ^ 63

/-- The delay computed before retry attempt `attempt ≥ 1`, in nanoseconds,
with `time.Duration` (int64) wrapping semantics:
`time.Duration(math.Pow(2, attempt-1)) * time.Second` is the int64 product
`2^(attempt-1) * 10^9` — the float64 `math.Pow(2, attempt-1)` and its
conversion to int64 are exact for `attempt ≤ 63`, which is the domain the
theorems quantify over; past int64 range the conversion itself is
implementation-defined — plus `rand.Intn(1000)` milliseconds
(`jitterMs * 10^6` ns) of jitter, then capped at `maxBackoffDelay = 32`
seconds only when the (possibly wrapped) sum exceeds it.  From attempt 35
on the product `2^(attempt-1) * 10^9` exceeds int64 max and wraps. -/
def computeBackoffDelayNs (attempt jitterMs : Nat) : Int :=
  let baseDelay := wrap64 ((2 ^ (attempt - 1) : Int) * 1000000000)
  let delay := wrap64 (baseDelay + (jitterMs : Int) * 1000000)
  if delay > 32 * 1000000000 then 32 * 1000000000 else delay

/-- The wait `time.Sleep` actually performs: a non-positive duration
returns immediately. -/
def effectiveSleepNs (attempt jitterMs : Nat) : Int :=
  max (computeBackoffDelayNs attempt jitterMs) 0

/-- The message-moving loop of `operations.processTransformation` (step 3):
for each message id in order call `ModifyMessageLabels` (modelled by
`modify`; `none` = success); on the first failure return the wrapped error
immediately.  Returns the list of message ids actually submitted and the
error, if any. -/
def moveLoop (modify : String → Option String) :
    List String → List String × Option String
  | [] => ([], none)
  | m :: rest =>
    match modify m with
    | some e => ([m], some ("failed to move message " ++ m ++ ": " ++ e))
    | none =>
      let res := moveLoop modify rest
      (m :: res.1, res.2)

/-- The pre-rename target-existence check of the rename-based
`operations.processTransformation`: fail when `LabelExists` reports the
nested name taken, proceed otherwise. -/
def targetExistsCheck (listing : Except String (List Label)) (nested : String) :
    Except String Unit :=
  match LabelExists listing nested with
  | some l =>
      .error ("target label " ++ nested ++ " already exists (ID: " ++ l.id ++ ")")
  | none => .ok ()

/-- The parent-creation guard in `operations.processTransformation` /
`FixAllLabels`: a parent label is created exactly when `LabelExists`
reports it absent. -/
def parentCreationAttempted (listing : Except String (List Label))
    (p : String) : Bool :=
  (LabelExists listing p).isNone

/-! ## Helper lemmas -/

theorem splitOnC_ne_nil (c : Char) (s : List Char) : splitOnC c s ≠ [] := by
  cases s with
  | nil => simp [splitOnC]
  | cons a rest =>
    simp only [splitOnC]
    split <;> simp

theorem splitOnC_length (c : Char) (s : List Char) :
    (splitOnC c s).length = s.count c + 1 := by
  induction s with
  | nil => simp [splitOnC]
  | cons a rest ih =>
    have hpos : 0 < (splitOnC c rest).length :=
      List.length_pos.mpr (splitOnC_ne_nil c rest)
    by_cases h : a = c
    · simp [splitOnC, h, List.count_cons, ih]
    · have hbeq : (a == c) = false := by
        simp [beq_iff_eq, h]
      have hbeq' : (c == a) = false := by
        simp [beq_iff_eq]
        exact fun hc => h hc.symm
      simp only [splitOnC, if_neg h, List.length_cons, List.length_tail,
        List.count_cons, hbeq, hbeq', if_false, Bool.false_eq_true]
      omega

theorem splitParts_length (name : String) :
    (splitParts name).length = name.toList.count '.' + 1 := by
  simp [splitParts, splitOnC_length]

/-! ## Claims about the hierarchy parser -/

/-- C6: for every name containing the flat delimiter `.` exactly `k ≥ 1`
times whose first segment is not the reserved root marker (case-insensitive
`INBOX`), `ParseLabelHierarchy` yields a transformation with exactly `k`
required ancestors, a nested name equal to the `k+1` segments joined by
`/`, and `i`-th required ancestor (0-based) equal to the join of the first
`i+1` segments by `/`. -/
theorem parse_flat_name_ancestors (name : String) (k : Nat)
    (hk : name.toList.count '.' = k) (h1 : 1 ≤ k)
    (hroot : strToUpper (splitParts name).headI ≠ "INBOX") :
    ∃ t, ParseLabelHierarchy name = some t ∧
      (splitParts name).length = k + 1 ∧
      t.requiredParents.length = k ∧
      t.nestedStructure = String.intercalate "/" (splitParts name) ∧
      ∀ i, i < k →
        t.requiredParents[i]? =
          some (String.intercalate "/" ((splitParts name).take (i + 1))) := by
  have hlen : (splitParts name).length = k + 1 := by
    rw [splitParts_length, hk]
  have hnotle : ¬ (splitParts name).length ≤ 1 := by omega
  refine ⟨{ originalLabel := name, originalID := "",
            hierarchyParts := splitParts name,
            nestedStructure := String.intercalate "/" (splitParts name),
            messageCount := 0,
            requiredParents := buildRequiredParents (splitParts name) },
          ?_, hlen, ?_, rfl, ?_⟩
  · simp only [ParseLabelHierarchy]
    rw [if_neg hnotle, if_neg hroot]
  · simp [buildRequiredParents, hlen]
  · intro i hi
    simp [buildRequiredParents, List.getElem?_map, List.getElem?_range, hlen, hi]

/-- Witness for C6 at `"A.B.C"` (k = 2). -/
theorem parse_flat_name_ancestors_witness :
    "A.B.C".toList.count '.' = 2 ∧
    strToUpper (splitParts "A.B.C").headI ≠ "INBOX" ∧
    (∃ t, ParseLabelHierarchy "A.B.C" = some t ∧
      (splitParts "A.B.C").length = 2 + 1 ∧
      t.requiredParents.length = 2 ∧
      t.nestedStructure = String.intercalate "/" (splitParts "A.B.C") ∧
      ∀ i, i < 2 →
        t.requiredParents[i]? =
          some (String.intercalate "/" ((splitParts "A.B.C").take (i + 1)))) :=
  ⟨by decide, by decide,
   parse_flat_name_ancestors "A.B.C" 2 (by decide) (by decide) (by decide)⟩

/-- C7: reserved-root collapsing.  When the first `.`-separated segment,
uppercased, equals `INBOX`, the segment is dropped; when exactly one
segment remains the result is that single segment with no ancestors.
Concretely `ParseLabelHierarchy "INBOX.X"` yields nested name `"X"` with
zero ancestors and `ParseLabelHierarchy "INBOX.X.Y"` yields nested name
`"X/Y"` with ancestors `["X"]`. -/
theorem parse_reserved_root_collapse :
    (∀ name : String, 2 ≤ (splitParts name).length →
      strToUpper (splitParts name).headI = "INBOX" →
      ∃ t, ParseLabelHierarchy name = some t ∧
        t.hierarchyParts = (splitParts name).tail ∧
        ((splitParts name).length = 2 →
          t.nestedStructure = (splitParts name).tail.headI ∧
          t.requiredParents = [])) ∧
    ParseLabelHierarchy "INBOX.X" = some
      { originalLabel := "INBOX.X", originalID := "", hierarchyParts := ["X"],
        nestedStructure := "X", messageCount := 0, requiredParents := [] } ∧
    ParseLabelHierarchy "INBOX.X.Y" = some
      { originalLabel := "INBOX.X.Y", originalID := "",
        hierarchyParts := ["X", "Y"], nestedStructure := "X/Y",
        messageCount := 0, requiredParents := ["X"] } := by
  refine ⟨?_, by decide, by decide⟩
  intro name h2 hroot
  have hnotle : ¬ (splitParts name).length ≤ 1 := by omega
  simp only [ParseLabelHierarchy]
  rw [if_neg hnotle, if_pos hroot]
  by_cases h : (splitParts name).tail.length = 1
  · rw [if_pos h]
    exact ⟨_, rfl, rfl, fun _ => ⟨rfl, rfl⟩⟩
  · rw [if_neg h]
    refine ⟨_, rfl, rfl, fun h2' => ?_⟩
    exfalso
    apply h
    rw [List.length_tail, h2']

/-- Witness for C7 at `"INBOX.X"`. -/
theorem parse_reserved_root_collapse_witness :
    2 ≤ (splitParts "INBOX.X").length ∧
    strToUpper (splitParts "INBOX.X").headI = "INBOX" ∧
    (∃ t, ParseLabelHierarchy "INBOX.X" = some t ∧
      t.hierarchyParts = (splitParts "INBOX.X").tail ∧
      ((splitParts "INBOX.X").length = 2 →
        t.nestedStructure = (splitParts "INBOX.X").tail.headI ∧
        t.requiredParents = [])) :=
  ⟨by decide, by decide,
   parse_reserved_root_collapse.1 "INBOX.X" (by decide) (by decide)⟩

/-! ## Claims about the retry layer -/

theorem retryLoop_spec (op : Nat → Option GoError) (e : Nat → GoError) (N : Nat)
    (hfail : ∀ i, i < N → op i = some (e i) ∧ isRetryableError (e i) = true)
    (hsucc : ∀ i, N ≤ i → op i = none) :
    ∀ r a, a ≤ N →
      (N ≤ a + r → retryLoop op a r = (.success, N - a + 1)) ∧
      (a + r < N → retryLoop op a r = (.exhausted (e (a + r)), r + 1)) := by
  intro r
  induction r with
  | zero =>
    intro a ha
    constructor
    · intro hN
      have haN : a = N := by omega
      subst haN
      have hop : op a = none := hsucc a (by omega)
      simp [retryLoop, hop]
    · intro hlt
      obtain ⟨hop, hret⟩ := hfail a (by omega)
      simp [retryLoop, hop, hret]
  | succ r ih =>
    intro a ha
    constructor
    · intro hN
      by_cases haN : N ≤ a
      · have haN' : a = N := by omega
        subst haN'
        have hop : op a = none := hsucc a haN
        simp [retryLoop, hop]
      · push_neg at haN
        obtain ⟨hop, hret⟩ := hfail a haN
        have hrec := (ih (a + 1) (by omega)).1 (by omega)
        simp only [retryLoop, hop, hret, if_true, hrec]
        have harith : N - (a + 1) + 1 + 1 = N - a + 1 := by omega
        rw [harith]
    · intro hlt
      obtain ⟨hop, hret⟩ := hfail a (by omega)
      have hrec := (ih (a + 1) (by omega)).2 (by omega)
      simp only [retryLoop, hop, hret, if_true, hrec]
      have harith : a + 1 + r = a + (r + 1) := by omega
      rw [harith]

/-- C4: with `MaxRetries = M` and an operation failing retryably on its
first `N` invocations and succeeding thereafter, `retryWithBackoff` invokes
the operation `1 + min M N` times, succeeds iff `N ≤ M`, and when `N > M`
returns the budget-exhausted failure carrying the error of the last
invocation (attempt `M`); an operation whose first failure is
non-retryable is returned immediately after a single invocation. -/
theorem retryWithBackoff_budget :
    (∀ (M N : Nat) (op : Nat → Option GoError) (e : Nat → GoError),
      (∀ i, i < N → op i = some (e i) ∧ isRetryableError (e i) = true) →
      (∀ i, N ≤ i → op i = none) →
      (retryWithBackoff M op).2 = 1 + min M N ∧
      ((retryWithBackoff M op).1 = RetryOutcome.success ↔ N ≤ M) ∧
      (M < N → (retryWithBackoff M op).1 = RetryOutcome.exhausted (e M))) ∧
    (∀ (M : Nat) (op : Nat → Option GoError) (e0 : GoError),
      op 0 = some e0 → isRetryableError e0 = false →
      retryWithBackoff M op = (RetryOutcome.terminal e0, 1)) := by
  constructor
  · intro M N op e hfail hsucc
    have h := retryLoop_spec op e N hfail hsucc M 0 (by omega)
    unfold retryWithBackoff
    by_cases hMN : N ≤ M
    · rw [h.1 (by omega)]
      refine ⟨by simp; omega, by simp [hMN], fun hlt => absurd hMN (by omega)⟩
    · push_neg at hMN
      rw [h.2 (by omega)]
      refine ⟨by simp; omega, ?_, fun _ => by simp⟩
      simp only [Nat.zero_add]
      constructor
      · intro hc
        exact absurd hc (by simp)
      · intro hc
        exact absurd hc (by omega)
  · intro M op e0 hop hret
    unfold retryWithBackoff
    cases M with
    | zero => simp [retryLoop, hop, hret]
    | succ r => simp [retryLoop, hop, hret]

/-- Witness for C4: `MaxRetries = 3`, an operation failing retryably on its
first 5 invocations: 4 invocations total, budget exhausted. -/
theorem retryWithBackoff_budget_witness :
    (retryWithBackoff 3
        (fun i => if i < 5 then some (GoError.generic "timeout") else none)).2 =
      1 + min 3 5 ∧
    ((retryWithBackoff 3
        (fun i => if i < 5 then some (GoError.generic "timeout") else none)).1 =
        RetryOutcome.success ↔ (5 : Nat) ≤ 3) ∧
    ((3 : Nat) < 5 →
      (retryWithBackoff 3
        (fun i => if i < 5 then some (GoError.generic "timeout") else none)).1 =
        RetryOutcome.exhausted (GoError.generic "timeout")) :=
  retryWithBackoff_budget.1 3 5 _ (fun _ => GoError.generic "timeout")
    (by
      intro i hi
      refine ⟨?_, ?_⟩
      · show (if i < 5 then some (GoError.generic "timeout") else none) =
            some (GoError.generic "timeout")
        exact if_pos hi
      · show isRetryableError (GoError.generic "timeout") = true
        decide)
    (by
      intro i hi
      show (if i < 5 then some (GoError.generic "timeout") else none) = none
      exact if_neg (Nat.not_lt.mpr hi))

theorem wrap64_eq_self (x : Int) (h0 : -2 ^ 63 ≤ x) (h1 : x < 2 ^ 63) :
    wrap64 x = x := by
  unfold wrap64
  have hmod : (x + 2 ^ 63) % 2 ^ 64 = x + 2 ^ 63 :=
    Int.emod_eq_of_lt (by omega) (by omega)
  omega

/-- C8 counterexample: for retry attempt 7 (reachable whenever
`MaxRetries ≥ 7`) with zero jitter, the computed wait is the 32-second
ceiling (32·10^9 ns), which lies below the claimed interval start
`2^(7-1)` seconds = 64·10^9 ns. -/
theorem backoff_ceiling_counterexample :
    computeBackoffDelayNs 7 0 = 32 * 1000000000 ∧
    ¬ ((2 ^ (7 - 1) * 1000000000 : Int) ≤ computeBackoffDelayNs 7 0) := by decide

/-- C8 (amended): for attempts `1 ≤ a ≤ 6` the computed delay lies in
`[2^(a-1) s, 2^(a-1) s + jitterMax)` and is the wait performed; for
attempts `7 ≤ a ≤ 34` the delay exceeds the cap and the wait is exactly
the 32 s ceiling; from attempt 35 on the int64 product `2^(a-1) * 10^9` ns
wraps, so the computed delay escapes the cap irregularly — at attempt 35
it is negative and the sleep performed is zero.  The wait actually
performed never exceeds 32 s (the model is exact for attempts up to 63,
past which the float-to-int64 conversion is implementation-defined). -/
theorem backoff_delay_bounds (a j : Nat) (ha : 1 ≤ a) (ha63 : a ≤ 63)
    (hj : j < 1000) :
    effectiveSleepNs a j ≤ 32 * 1000000000 ∧
    (a ≤ 6 → (2 ^ (a - 1) * 1000000000 : Int) ≤ computeBackoffDelayNs a j ∧
      computeBackoffDelayNs a j < 2 ^ (a - 1) * 1000000000 + 1000000000 ∧
      effectiveSleepNs a j = computeBackoffDelayNs a j) ∧
    (7 ≤ a → a ≤ 34 → computeBackoffDelayNs a j = 32 * 1000000000 ∧
      effectiveSleepNs a j = 32 * 1000000000) ∧
    (a = 35 → computeBackoffDelayNs a j < 0 ∧ effectiveSleepNs a j = 0) := by
  have h63 : (2 : Int) ^ 63 = 9223372036854775808 := by norm_num
  refine ⟨?_, ?_, ?_, ?_⟩
  · simp only [effectiveSleepNs, computeBackoffDelayNs]
    split <;> omega
  · intro h6
    have hpow1 : (1 : Int) ≤ 2 ^ (a - 1) := one_le_pow₀ (by norm_num)
    have hpow32 : (2 : Int) ^ (a - 1) ≤ 2 ^ 5 :=
      pow_le_pow_right₀ (by norm_num) (by omega)
    have h5 : (2 : Int) ^ 5 = 32 := by norm_num
    simp only [effectiveSleepNs, computeBackoffDelayNs]
    rw [wrap64_eq_self ((2 ^ (a - 1) : Int) * 1000000000) (by omega) (by omega)]
    rw [wrap64_eq_self ((2 ^ (a - 1) : Int) * 1000000000 + (j : Int) * 1000000)
      (by omega) (by omega)]
    refine ⟨?_, ?_, ?_⟩ <;> (split <;> omega)
  · intro h7 h34
    have hpow64 : (2 : Int) ^ 6 ≤ 2 ^ (a - 1) :=
      pow_le_pow_right₀ (by norm_num) (by omega)
    have hpow33 : (2 : Int) ^ (a - 1) ≤ 2 ^ 33 :=
      pow_le_pow_right₀ (by norm_num) (by omega)
    have h6n : (2 : Int) ^ 6 = 64 := by norm_num
    have h33n : (2 : Int) ^ 33 = 8589934592 := by norm_num
    simp only [effectiveSleepNs, computeBackoffDelayNs]
    rw [wrap64_eq_self ((2 ^ (a - 1) : Int) * 1000000000) (by omega) (by omega)]
    rw [wrap64_eq_self ((2 ^ (a - 1) : Int) * 1000000000 + (j : Int) * 1000000)
      (by omega) (by omega)]
    rw [if_pos (by omega)]
    exact ⟨rfl, rfl⟩
  · intro h35
    subst h35
    have hbase : wrap64 ((2 ^ (35 - 1) : Int) * 1000000000) =
        -1266874889709551616 := by decide
    simp only [effectiveSleepNs, computeBackoffDelayNs, hbase]
    rw [wrap64_eq_self (-1266874889709551616 + (j : Int) * 1000000)
      (by omega) (by omega)]
    rw [if_neg (by omega)]
    constructor
    · omega
    · omega

/-- Witness for C8 (amended) at attempt 1 with zero jitter. -/
theorem backoff_delay_bounds_witness :
    effectiveSleepNs 1 0 ≤ 32 * 1000000000 ∧
    ((1 : Nat) ≤ 6 → (2 ^ (1 - 1) * 1000000000 : Int) ≤ computeBackoffDelayNs 1 0 ∧
      computeBackoffDelayNs 1 0 < 2 ^ (1 - 1) * 1000000000 + 1000000000 ∧
      effectiveSleepNs 1 0 = computeBackoffDelayNs 1 0) ∧
    ((7 : Nat) ≤ 1 → (1 : Nat) ≤ 34 → computeBackoffDelayNs 1 0 = 32 * 1000000000 ∧
      effectiveSleepNs 1 0 = 32 * 1000000000) ∧
    ((1 : Nat) = 35 → computeBackoffDelayNs 1 0 < 0 ∧ effectiveSleepNs 1 0 = 0) :=
  backoff_delay_bounds 1 0 (by decide) (by decide) (by decide)

/-- C5 counterexample: a Google API error with status 404 whose message is
`"timeout"` is not a rate-limit signal, not a 5xx transient, not a 403, and
not a network-level condition, so the claim classifies it terminal; the
code falls through to the substring check on the rendered error text and
classifies it retryable. -/
theorem isRetryableError_claim_counterexample :
    isRetryableError (GoError.apiError 404 "timeout") = true ∧
    specRetryableClaim (GoError.apiError 404 "timeout") = false := by decide

/-- C5 (amended): a failure is retryable iff it is a 429/500/502/503/504
API error; a 403 API error whose message mentions quota or rate limit; an
API error with any other status whose rendered text contains timeout /
connection reset / temporary failure; or a non-API error whose text
contains one of those phrases.  (A 403 without quota text is terminal even
when its text contains such a phrase: the 403 case returns directly.) -/
theorem isRetryableError_characterization (e : GoError) :
    isRetryableError e = true ↔
      ((∃ c m, e = GoError.apiError c m ∧
          (c = 429 ∨ c = 500 ∨ c = 502 ∨ c = 503 ∨ c = 504)) ∨
       (∃ m, e = GoError.apiError 403 m ∧
          (strContains (strToLower m) "quota" = true ∨
           strContains (strToLower m) "rate limit" = true)) ∨
       (∃ c m, e = GoError.apiError c m ∧
          ¬ (c = 429 ∨ c = 500 ∨ c = 502 ∨ c = 503 ∨ c = 504 ∨ c = 403) ∧
          isTransientText (errText (GoError.apiError c m)) = true) ∨
       (∃ t, e = GoError.generic t ∧ isTransientText t = true)) := by
  cases e with
  | generic t =>
    simp only [isRetryableError]
    constructor
    · intro h
      exact Or.inr (Or.inr (Or.inr ⟨t, rfl, h⟩))
    · intro h
      rcases h with ⟨c, m, he, _⟩ | ⟨m, he, _⟩ | ⟨c, m, he, _, _⟩ | ⟨t', he, ht⟩
      · exact GoError.noConfusion he
      · exact GoError.noConfusion he
      · exact GoError.noConfusion he
      · injection he with h1
        subst h1
        exact ht
  | apiError c m =>
    by_cases h5 : c = 429 ∨ c = 500 ∨ c = 502 ∨ c = 503 ∨ c = 504
    · have hb : (decide (c = 429) || decide (c = 500) || decide (c = 502) ||
          decide (c = 503) || decide (c = 504)) = true := by
        rcases h5 with h | h | h | h | h <;> simp [h]
      simp only [isRetryableError, hb, if_true]
      constructor
      · intro _
        exact Or.inl ⟨c, m, rfl, h5⟩
      · intro _
        trivial
    · have hb : (decide (c = 429) || decide (c = 500) || decide (c = 502) ||
          decide (c = 503) || decide (c = 504)) = false := by
        push_neg at h5
        simp only [Bool.or_eq_false_iff, decide_eq_false_iff_not]
        exact ⟨⟨⟨⟨h5.1, h5.2.1⟩, h5.2.2.1⟩, h5.2.2.2.1⟩, h5.2.2.2.2⟩
      push_neg at h5
      by_cases h403 : c = 403
      · subst h403
        simp only [isRetryableError, hb, Bool.false_eq_true, if_false,
          eq_self_iff_true, if_true]
        constructor
        · intro h
          refine Or.inr (Or.inl ⟨m, rfl, ?_⟩)
          simpa using h
        · intro h
          rcases h with ⟨c', m', he, hc'⟩ | ⟨m', he, hq⟩ | ⟨c', m', he, hnot, _⟩ |
            ⟨t, he, _⟩
          · injection he with h1 h2
            subst h1
            rcases hc' with h | h | h | h | h <;> omega
          · injection he with h1 h2
            subst h2
            rcases hq with h | h <;> simp [h]
          · injection he with h1 h2
            exact absurd (Or.inr (Or.inr (Or.inr (Or.inr (Or.inr h1.symm))))) hnot
          · exact GoError.noConfusion he
      · simp only [isRetryableError, hb, Bool.false_eq_true, if_false]
        rw [if_neg h403]
        constructor
        · intro h
          refine Or.inr (Or.inr (Or.inl ⟨c, m, rfl, ?_, h⟩))
          intro hx
          rcases hx with h | h | h | h | h | h
          · exact h5.1 h
          · exact h5.2.1 h
          · exact h5.2.2.1 h
          · exact h5.2.2.2.1 h
          · exact h5.2.2.2.2 h
          · exact h403 h
        · intro h
          rcases h with ⟨c', m', he, hc'⟩ | ⟨m', he, hq⟩ | ⟨c', m', he, hnot, ht⟩ |
            ⟨t, he, _⟩
          · injection he with h1 h2
            subst h1
            rcases hc' with h | h | h | h | h
            · exact absurd h h5.1
            · exact absurd h h5.2.1
            · exact absurd h h5.2.2.1
            · exact absurd h h5.2.2.2.1
            · exact absurd h h5.2.2.2.2
          · injection he with h1 h2
            exact absurd h1 h403
          · injection he with h1 h2
            subst h1
            subst h2
            exact ht
          · exact GoError.noConfusion he

/-! ## Claims about the message-moving loop -/

/-- C1 counterexample: with two message ids where the first reassignment
fails terminally, the loop returns an error and never submits the second
id — a later item IS prevented from being processed, and no batch
partitioning occurs. -/
theorem moveLoop_abort_counterexample :
    (moveLoop (fun m => if m = "m1" then some "boom" else none) ["m1", "m2"]).2 =
      some "failed to move message m1: boom" ∧
    "m2" ∉ (moveLoop (fun m => if m = "m1" then some "boom" else none)
      ["m1", "m2"]).1 := by decide

/-- C1 (amended): the moving loop of `processTransformation` processes the
message ids in order in a single unpartitioned pass; when every
reassignment succeeds all ids are submitted with no error; a terminal
failure on one item aborts the move with an error, the submitted ids being
exactly those up to and including the failing one (earlier successes are
not rolled back, later ids are never submitted). -/
theorem moveLoop_single_pass_abort :
    (∀ (modify : String → Option String) (ids : List String),
      (∀ m ∈ ids, modify m = none) → moveLoop modify ids = (ids, none)) ∧
    (∀ (modify : String → Option String) (pre post : List String) (bad : String),
      (∀ m ∈ pre, modify m = none) → (modify bad).isSome = true →
      (moveLoop modify (pre ++ bad :: post)).1 = pre ++ [bad] ∧
      (moveLoop modify (pre ++ bad :: post)).2.isSome = true) := by
  constructor
  · intro modify ids h
    induction ids with
    | nil => rfl
    | cons m rest ih =>
      have hm : modify m = none := h m (by simp)
      have hrest := ih (fun x hx => h x (by simp [hx]))
      simp [moveLoop, hm, hrest]
  · intro modify pre post bad hpre hbad
    induction pre with
    | nil =>
      obtain ⟨e, he⟩ := Option.isSome_iff_exists.mp hbad
      simp [moveLoop, he]
    | cons m rest ih =>
      have hm : modify m = none := hpre m (by simp)
      have hrec := ih (fun x hx => hpre x (by simp [hx]))
      refine ⟨?_, ?_⟩
      · simp [moveLoop, hm, hrec.1]
      · simp [moveLoop, hm, hrec.2]

/-- Witness for C1 (amended): all-success pass and a failure at the second
of three ids. -/
theorem moveLoop_single_pass_abort_witness :
    moveLoop (fun _ => none) ["a", "b"] = (["a", "b"], none) ∧
    ((moveLoop (fun m => if m = "b" then some "x" else none)
        (["a"] ++ "b" :: ["c"])).1 = ["a"] ++ ["b"] ∧
      (moveLoop (fun m => if m = "b" then some "x" else none)
        (["a"] ++ "b" :: ["c"])).2.isSome = true) :=
  ⟨moveLoop_single_pass_abort.1 _ _ (fun _ _ => rfl),
   moveLoop_single_pass_abort.2 _ ["a"] ["c"] "b"
     (by
       intro m hm
       simp only [List.mem_singleton] at hm
       subst hm
       decide)
     (by decide)⟩

/-! ## Claims about the analyzer -/

theorem analyzeLoop_ok_spec (fetch : String → Except String (List String)) :
    ∀ (ls : List Label) (entries : List (String × LabelTransformation)) (tot : Nat),
      analyzeLoop fetch ls = .ok (entries, tot) →
      (∀ l ∈ ls, ParseLabelHierarchy l.name ≠ none →
        ∃ msgs, fetch l.id = Except.ok msgs) ∧
      tot = (entries.map (fun p => p.2.messageCount)).sum := by
  intro ls
  induction ls with
  | nil =>
    intro entries tot h
    simp only [analyzeLoop, Except.ok.injEq] at h
    injection h with h1 h2
    subst h1
    subst h2
    constructor
    · intro l hl
      exact absurd hl (by simp)
    · simp
  | cons l rest ih =>
    intro entries tot h
    cases hp : ParseLabelHierarchy l.name with
    | none =>
      simp only [analyzeLoop, hp] at h
      obtain ⟨hall, hsum⟩ := ih entries tot h
      refine ⟨?_, hsum⟩
      intro x hx hpx
      rcases List.mem_cons.mp hx with rfl | hx'
      · exact absurd hp hpx
      · exact hall x hx' hpx
    | some t =>
      cases hf : fetch l.id with
      | error e => simp [analyzeLoop, hp, hf] at h
      | ok ids =>
        cases hrec : analyzeLoop fetch rest with
        | error e => simp [analyzeLoop, hp, hf, hrec] at h
        | ok p =>
          obtain ⟨m, tot'⟩ := p
          simp only [analyzeLoop, hp, hf, hrec, Except.ok.injEq] at h
          obtain ⟨hall, hsum⟩ := ih m tot' hrec
          injection h with h1 h2
          subst h1
          subst h2
          constructor
          · intro x hx hpx
            rcases List.mem_cons.mp hx with rfl | hx'
            · exact ⟨ids, hf⟩
            · exact hall x hx' hpx
          · simp [hsum]

/-- C2 counterexample: label enumeration succeeds with the single label
`A.B`, but its message-count fetch fails; `AnalyzeLabels` aborts with an
error instead of recording `MessageCount = 0` and continuing. -/
theorem analyzeLabels_fetch_failure_counterexample :
    AnalyzeLabels (Except.ok [⟨"id1", "A.B", "user"⟩])
        (fun _ => Except.error "boom") =
      Except.error "failed to get message count for label A.B: boom" := by rfl

/-- C2 (amended): `AnalyzeLabels` aborts with an error both when label
enumeration fails and when any eligible label's message-count fetch fails
(a successful analysis implies every parsed label's fetch succeeded, and
the total is the sum of the recorded counts); the record-`MessageCount=0`
warning behavior belongs to the selective-fix lookup
(`findLabelWithChildren` / `findSpecificLabel`), modelled by
`attachCount`, not to `AnalyzeLabels`. -/
theorem analyzeLabels_failure_modes :
    (∀ (e : String) (fetch : String → Except String (List String)),
      AnalyzeLabels (Except.error e) fetch =
        Except.error ("failed to find period-separated labels: " ++ e)) ∧
    (∀ (fetch : String → Except String (List String)) (ls : List Label)
        (entries : List (String × LabelTransformation)) (tot : Nat),
      analyzeLoop fetch ls = Except.ok (entries, tot) →
      (∀ l ∈ ls, ParseLabelHierarchy l.name ≠ none →
        ∃ msgs, fetch l.id = Except.ok msgs) ∧
      tot = (entries.map (fun p => p.2.messageCount)).sum) ∧
    (∀ (fetch : String → Except String (List String))
        (t : LabelTransformation) (id e : String),
      fetch id = Except.error e → (attachCount fetch t id).messageCount = 0) := by
  refine ⟨fun e fetch => rfl, fun fetch => analyzeLoop_ok_spec fetch, ?_⟩
  intro fetch t id e hf
  simp [attachCount, hf]

/-- Witness for C2 (amended): one label whose fetch succeeds with no
messages, and one transformation whose fetch fails. -/
theorem analyzeLabels_failure_modes_witness :
    ((∀ l ∈ [(⟨"id1", "A.B", "user"⟩ : Label)],
        ParseLabelHierarchy l.name ≠ none →
        ∃ msgs, (fun _ : String => Except.ok (ε := String) ([] : List String)) l.id =
          Except.ok msgs) ∧
      (0 : Nat) =
        (([("A.B",
            { originalLabel := "A.B", originalID := "id1",
              hierarchyParts := ["A", "B"], nestedStructure := "A/B",
              messageCount := 0, requiredParents := ["A"] })] :
            List (String × LabelTransformation)).map
          (fun p => p.2.messageCount)).sum) ∧
    (attachCount (fun _ : String => Except.error (α := List String) "boom")
      { originalLabel := "A.B", originalID := "", hierarchyParts := ["A", "B"],
        nestedStructure := "A/B", messageCount := 7,
        requiredParents := ["A"] } "id1").messageCount = 0 :=
  ⟨analyzeLabels_failure_modes.2.1
      (fun _ : String => Except.ok (ε := String) ([] : List String))
      [⟨"id1", "A.B", "user"⟩]
      [("A.B",
        { originalLabel := "A.B", originalID := "id1",
          hierarchyParts := ["A", "B"], nestedStructure := "A/B",
          messageCount := 0, requiredParents := ["A"] })]
      0 rfl,
   analyzeLabels_failure_modes.2.2
      (fun _ : String => Except.error (α := List String) "boom")
      { originalLabel := "A.B", originalID := "", hierarchyParts := ["A", "B"],
        nestedStructure := "A/B", messageCount := 7, requiredParents := ["A"] }
      "id1" "boom" rfl⟩

/-! ## Claims about conflict detection -/

theorem conflictsFor_eq_nil (listing : Except String (List Label))
    (t : LabelTransformation) :
    conflictsFor listing t = [] ↔
      (∀ p ∈ t.requiredParents, LabelExists listing p = none) ∧
      LabelExists listing t.nestedStructure = none := by
  simp only [conflictsFor, List.append_eq_nil]
  constructor
  · rintro ⟨h1, h2⟩
    constructor
    · intro p hp
      have := List.filterMap_eq_nil_iff.mp h1 p hp
      simpa using this
    · cases hx : LabelExists listing t.nestedStructure with
      | none => rfl
      | some l => simp [hx] at h2
  · rintro ⟨h1, h2⟩
    constructor
    · apply List.filterMap_eq_nil_iff.mpr
      intro p hp
      simp [h1 p hp]
    · simp [h2]

theorem checkConflicts_empty_iff (listing : Except String (List Label))
    (ts : List LabelTransformation) :
    CheckConflicts listing ts = [] ↔
      ∀ t ∈ ts, (∀ p ∈ t.requiredParents, LabelExists listing p = none) ∧
        LabelExists listing t.nestedStructure = none := by
  induction ts with
  | nil => simp [CheckConflicts]
  | cons t rest ih =>
    simp only [CheckConflicts, List.flatMap_cons, List.append_eq_nil] at *
    rw [ih, conflictsFor_eq_nil]
    simp

theorem checkConflicts_ignores_id (listing : Except String (List Label))
    (ts : List LabelTransformation) (f : LabelTransformation → String) :
    CheckConflicts listing (ts.map (fun t => { t with originalID := f t })) =
      CheckConflicts listing ts := by
  induction ts with
  | nil => rfl
  | cons t rest ih =>
    simp only [List.map_cons, CheckConflicts, List.flatMap_cons] at *
    rw [ih]
    rfl

/-- C3 counterexample: a transformation originating from label id `id1`
whose nested target `A/B` already exists remotely under the very same
identity `id1`; the claim says no conflict is reported in that case, but
`CheckConflicts` (which never compares identities) reports one. -/
theorem checkConflicts_own_identity_counterexample :
    CheckConflicts (Except.ok [⟨"id1", "A/B", "user"⟩])
        [⟨"A.B", "id1", ["A", "B"], "A/B", 0, ["A"]⟩] ≠ [] ∧
    (LabelExists (Except.ok [⟨"id1", "A/B", "user"⟩]) "A/B").map Label.id =
      some "id1" := by decide

/-- C3 (amended): `CheckConflicts` emits a conflict for a required-ancestor
or nested target name exactly when a remote record with that exact name
exists — regardless of identity; the transformation's own original
identity is never consulted (the output is invariant under rewriting every
`originalID`), and when no record with the name is found (including when
the listing call failed) no conflict is reported. -/
theorem checkConflicts_name_existence :
    (∀ (listing : Except String (List Label)) (ts : List LabelTransformation)
        (f : LabelTransformation → String),
      CheckConflicts listing (ts.map (fun t => { t with originalID := f t })) =
        CheckConflicts listing ts) ∧
    (∀ (listing : Except String (List Label)) (ts : List LabelTransformation),
      CheckConflicts listing ts = [] ↔
        ∀ t ∈ ts, (∀ p ∈ t.requiredParents, LabelExists listing p = none) ∧
          LabelExists listing t.nestedStructure = none) :=
  ⟨checkConflicts_ignores_id, checkConflicts_empty_iff⟩

/-! ## Claims about required-parent aggregation -/

theorem sortStrings_sorted (l : List String) :
    (sortStrings l).Sorted (· ≤ ·) :=
  List.sorted_mergeSort' l

theorem sortStrings_perm (l : List String) : (sortStrings l).Perm l :=
  List.mergeSort_perm l _

/-- C9: the aggregated `RequiredParents` list is sorted, duplicate-free,
contains exactly the union of the transformations' `RequiredParents`, and
is the same list for every processing order of the transformations. -/
theorem requiredParents_dedup_sorted :
    (∀ ts : List LabelTransformation,
      (sortStrings (GetAllRequiredParents ts)).Sorted (· ≤ ·) ∧
      (sortStrings (GetAllRequiredParents ts)).Nodup ∧
      (∀ p, p ∈ sortStrings (GetAllRequiredParents ts) ↔
        ∃ t ∈ ts, p ∈ t.requiredParents)) ∧
    (∀ ts ts' : List LabelTransformation, ts.Perm ts' →
      sortStrings (GetAllRequiredParents ts) =
        sortStrings (GetAllRequiredParents ts')) := by
  constructor
  · intro ts
    refine ⟨sortStrings_sorted _, ?_, ?_⟩
    · exact ((sortStrings_perm _).nodup_iff).mpr (List.nodup_dedup _)
    · intro p
      rw [List.Perm.mem_iff (sortStrings_perm _)]
      simp [GetAllRequiredParents, List.mem_dedup, List.mem_flatMap]
  · intro ts ts' hperm
    refine List.eq_of_perm_of_sorted ?_ (sortStrings_sorted _) (sortStrings_sorted _)
    have h1 : (sortStrings (GetAllRequiredParents ts)).Perm
        (GetAllRequiredParents ts) := sortStrings_perm _
    have h2 : (GetAllRequiredParents ts).Perm (GetAllRequiredParents ts') :=
      (hperm.flatMap_right _).dedup
    have h3 : (GetAllRequiredParents ts').Perm
        (sortStrings (GetAllRequiredParents ts')) := (sortStrings_perm _).symm
    exact h1.trans (h2.trans h3)

/-- Witness for C9: the two spec-example transformations (ancestors
`{A, A/B}` and `{A, C}`) aggregated in either order give the same list. -/
theorem requiredParents_dedup_sorted_witness :
    sortStrings (GetAllRequiredParents
        [⟨"L1", "", ["A", "B"], "A/B", 0, ["A", "A/B"]⟩,
         ⟨"L2", "", ["A", "C"], "A/C", 0, ["A", "C"]⟩]) =
      sortStrings (GetAllRequiredParents
        [⟨"L2", "", ["A", "C"], "A/C", 0, ["A", "C"]⟩,
         ⟨"L1", "", ["A", "B"], "A/B", 0, ["A", "A/B"]⟩]) :=
  requiredParents_dedup_sorted.2 _ _ (List.Perm.swap _ _ _)

/-! ## Claim about LabelExists failure handling -/

/-- C10: when the underlying label-listing call fails, `LabelExists`
returns `none` — the same result as for a genuinely absent name — so
conflict checking reports nothing, the parent-creation guard proceeds to
create, and the pre-rename target-existence check passes as if there were
no collision. -/
theorem labelExists_failure_as_absence (e : String) (n : String)
    (ts : List LabelTransformation) :
    LabelExists (Except.error e) n = none ∧
    LabelExists (Except.error e) n = LabelExists (Except.ok []) n ∧
    CheckConflicts (Except.error e) ts = [] ∧
    parentCreationAttempted (Except.error e) n = true ∧
    targetExistsCheck (Except.error e) n = Except.ok () := by
  refine ⟨rfl, rfl, ?_, rfl, rfl⟩
  rw [checkConflicts_empty_iff]
  intro t ht
  exact ⟨fun p hp => rfl, rfl⟩

end GmailLabelFixer
